import Mathlib

/-!
Shallow embedding of the contract-state projection and operation-history
aggregation engine of the rgb-std repository, together with theorems checking
its natural-language specification.

Sources embedded:
  * `src/interface/contract.rs` — `AmountChange` and its `StateChange`
    implementation, `IfaceOp`, `ContractIface` queries (`global`,
    `extract_state`, `rights`/`fungible`/`data`/`attachments` and their `_all`
    variants, `allocations`, `operations` and the per-kind `*_ops` wrappers);
  * `src/interface/rgb20.rs` — the second `StateChange` implementation for
    `AmountChange` and the `Rgb20` supply queries (`total_issued_supply`,
    `total_burned_supply`, `total_replaced_supply`, `total_supply`).

Modelling conventions:
  * `invoice::Amount` (a `u64` newtype from the `invoice` workspace crate,
    with checked arithmetic that never silently wraps) is modelled as `Nat`;
    in every non-faulting execution the checked operations agree with exact
    `Nat` arithmetic, and the embedded code only subtracts on branches where
    the result is non-negative, so `Nat` truncated subtraction agrees there.
  * Identifier types (`OpId`, `XWitnessId`, `XOutputSeal`, assignment-type
    ids, semantic type ids) are opaque to the embedded code and are modelled
    as `Nat`; field names are `String`s as in the source; raw strict-encoded
    global records and decoded `StrictVal`s are opaque and modelled as `Nat`.
  * `SmallOrdSet::push` faults (`expect`) on a duplicate element; it is
    modelled as an `Option`-returning insert, `none` meaning the fatal panic.
  * Rust panics (`expect`/`unreachable!`) are modelled by the `panic`
    constructor of the `Outcome` type; the recoverable `Result::Err` by its
    `err` constructor.
  * Lazy iterators are modelled as `List`s; the `_all` (collecting) variants
    coincide with the lazy ones in this model since `collect` is the identity
    on lists.
-/

namespace RgbStd

/-- `AmountChange` from `src/interface/contract.rs` lines 105-117 (the
textually identical enum is re-declared in `src/interface/rgb20.rs` lines
541-553): a signed net delta kept as a three-way tag over unsigned
magnitudes. The magnitude is an `invoice::Amount`, modelled as `Nat`. -/
inductive AmountChange : Type where
  | Dec (a : Nat)
  | Zero
  | Inc (a : Nat)
  deriving DecidableEq, Repr

namespace AmountChange

/-- `<AmountChange as StateChange>::from_spent` (contract.rs line 122). -/
def from_spent (state : Nat) : AmountChange := AmountChange.Dec state

/-- `<AmountChange as StateChange>::from_received` (contract.rs line 124). -/
def from_received (state : Nat) : AmountChange := AmountChange.Inc state

/-- `<AmountChange as StateChange>::merge_spent` (contract.rs lines 126-136):
the `cmp`-match-based implementation. -/
def merge_spent (self : AmountChange) (sub : Nat) : AmountChange :=
  match self with
  | AmountChange.Dec neg => AmountChange.Dec (neg + sub)
  | AmountChange.Zero => AmountChange.Dec sub
  | AmountChange.Inc pos =>
    match compare sub pos with
    | Ordering.lt => AmountChange.Inc (pos - sub)
    | Ordering.eq => AmountChange.Zero
    | Ordering.gt => AmountChange.Dec (sub - pos)

/-- `<AmountChange as StateChange>::merge_received` (contract.rs lines
138-148). -/
def merge_received (self : AmountChange) (add : Nat) : AmountChange :=
  match self with
  | AmountChange.Inc pos => AmountChange.Inc (pos + add)
  | AmountChange.Zero => AmountChange.Inc add
  | AmountChange.Dec neg =>
    match compare add neg with
    | Ordering.lt => AmountChange.Dec (neg - add)
    | Ordering.eq => AmountChange.Zero
    | Ordering.gt => AmountChange.Inc (add - neg)

/-- `<AmountChange as StateChange>::merge_spent` from
`src/interface/rgb20.rs` lines 562-571: the guard-clause-based implementation
(the trailing `Inc(_) => unreachable!()` arm is unreachable by trichotomy and
is absorbed by the final `else`). -/
def merge_spent20 (self : AmountChange) (sub : Nat) : AmountChange :=
  match self with
  | AmountChange.Dec neg => AmountChange.Dec (neg + sub)
  | AmountChange.Zero => AmountChange.Dec sub
  | AmountChange.Inc pos =>
    if pos > sub then AmountChange.Inc (pos - sub)
    else if pos = sub then AmountChange.Zero
    else AmountChange.Dec (sub - pos)

/-- `<AmountChange as StateChange>::merge_received` from
`src/interface/rgb20.rs` lines 573-582. -/
def merge_received20 (self : AmountChange) (add : Nat) : AmountChange :=
  match self with
  | AmountChange.Inc pos => AmountChange.Inc (pos + add)
  | AmountChange.Zero => AmountChange.Inc add
  | AmountChange.Dec neg =>
    if neg > add then AmountChange.Dec (neg - add)
    else if neg = add then AmountChange.Zero
    else AmountChange.Inc (add - neg)

/-- `from_spent` of the rgb20.rs implementation (line 558). -/
def from_spent20 (state : Nat) : AmountChange := AmountChange.Dec state

/-- `from_received` of the rgb20.rs implementation (line 560). -/
def from_received20 (state : Nat) : AmountChange := AmountChange.Inc state

/-- The signed value an `AmountChange` denotes. -/
def toInt : AmountChange → Int
  | AmountChange.Dec a => -(a : Int)
  | AmountChange.Zero => 0
  | AmountChange.Inc a => (a : Int)

/-- An `AmountChange` is in canonical form when a nonzero magnitude sits
under `Dec`/`Inc`; `Zero` is always canonical. -/
def Canonical : AmountChange → Prop
  | AmountChange.Dec a => 0 < a
  | AmountChange.Zero => True
  | AmountChange.Inc a => 0 < a

end AmountChange

/-- One spend or receive amount event. -/
inductive AmountEvent : Type where
  | spend (a : Nat)
  | receive (a : Nat)
  deriving DecidableEq, Repr

namespace AmountEvent

/-- The signed arithmetic contribution of one event. -/
def delta : AmountEvent → Int
  | AmountEvent.spend a => -(a : Int)
  | AmountEvent.receive a => (a : Int)

/-- The magnitude of one event. -/
def magnitude : AmountEvent → Nat
  | AmountEvent.spend a => a
  | AmountEvent.receive a => a

end AmountEvent

/-- Folding one more event into a running change via the `StateChange`
merge operations. -/
def applyEvent (c : AmountChange) : AmountEvent → AmountChange
  | AmountEvent.spend a => c.merge_spent a
  | AmountEvent.receive a => c.merge_received a

/-- Initialising a change from the first event via the `StateChange`
constructors. -/
def initEvent : AmountEvent → AmountChange
  | AmountEvent.spend a => AmountChange.from_spent a
  | AmountEvent.receive a => AmountChange.from_received a

/-- Folding a non-empty sequence of events: the first through
`from_spent`/`from_received`, the rest through `merge_spent`/`merge_received`. -/
def foldEvents (e : AmountEvent) (es : List AmountEvent) : AmountChange :=
  es.foldl applyEvent (initEvent e)

/-- The arithmetic net (total received minus total spent) of a sequence of
events. -/
def netOf (l : List AmountEvent) : Int :=
  l.foldl (fun s e => s + e.delta) 0

/-- The `AmountChange` that canonically represents a signed net value. -/
def reify (z : Int) : AmountChange :=
  if z < 0 then AmountChange.Dec (-z).toNat
  else if z = 0 then AmountChange.Zero
  else AmountChange.Inc z.toNat

end RgbStd

namespace RgbStd

/-- `OutputAssignment<State>` from the `contract` module: one state record
produced by one contract operation. The fields the embedded code reads are
`opout.op` (originating operation id), `opout.ty` (assignment-type id),
`opout.no` (slot index), `seal`, the optional settling-transaction
(`witness`) id, and the state payload. -/
structure OutputAssignment (S : Type) where
  opoutOp : Nat
  opoutTy : Nat
  opoutNo : Nat
  «seal» : Nat
  witness : Option Nat
  state : S
  deriving DecidableEq, Repr

/-- `OutputAssignment::transmute` / `OutputAssignment::from`: a conversion of
the state payload leaving every other field unchanged. -/
def OutputAssignment.mapState {S U : Type} (f : S → U) (o : OutputAssignment S) :
    OutputAssignment U :=
  { opoutOp := o.opoutOp, opoutTy := o.opoutTy, opoutNo := o.opoutNo,
    «seal» := o.seal, witness := o.witness, state := f o.state }

/-- The `StateChange` trait (contract.rs lines 89-95), as a record of its four
required operations over a state type `S` and a change type `C`. -/
structure StateChangeImpl (S C : Type) where
  from_spent : S → C
  from_received : S → C
  merge_spent : C → S → C
  merge_received : C → S → C

/-- The canonical fungible instance: `impl StateChange for AmountChange`
(contract.rs lines 119-149). -/
def amountStateChange : StateChangeImpl Nat AmountChange :=
  { from_spent := AmountChange.from_spent
    from_received := AmountChange.from_received
    merge_spent := AmountChange.merge_spent
    merge_received := AmountChange.merge_received }

/-- `SmallOrdSet::push`: inserts into an ordered duplicate-free set, faulting
(`expect "internal inconsistency of stash data"`) on a duplicate element;
`none` models the fatal panic. -/
def ordSetPush (s : List Nat) (x : Nat) : Option (List Nat) :=
  if x ∈ s then none else some (s ++ [x])

/-- `IfaceOp<S>` (contract.rs lines 159-165): per-settling-transaction
aggregate of received-operation ids, spent-input operation ids, the running
net state change, and the payer/beneficiary seal sets. -/
structure IfaceOp (C : Type) where
  opids : List Nat
  inputs : List Nat
  state_change : C
  payers : List Nat
  beneficiaries : List Nat
  deriving DecidableEq, Repr

namespace IfaceOp

variable {S C : Type}

/-- `IfaceOp::from_spent` (contract.rs lines 168-177). -/
def from_spent (sc : StateChangeImpl S C) (alloc : OutputAssignment S) : IfaceOp C :=
  { opids := []
    inputs := [alloc.opoutOp]
    state_change := sc.from_spent alloc.state
    payers := []
    beneficiaries := [] }

/-- `IfaceOp::from_received` (contract.rs lines 178-187). -/
def from_received (sc : StateChangeImpl S C) (alloc : OutputAssignment S) : IfaceOp C :=
  { opids := [alloc.opoutOp]
    inputs := []
    state_change := sc.from_received alloc.state
    payers := []
    beneficiaries := [] }

/-- `IfaceOp::merge_spent` (contract.rs lines 188-194); `none` models the
fatal duplicate-operation-id panic of `SmallOrdSet::push`. -/
def merge_spent (sc : StateChangeImpl S C) (self : IfaceOp C)
    (alloc : OutputAssignment S) : Option (IfaceOp C) :=
  (ordSetPush self.inputs alloc.opoutOp).map fun inputs2 =>
    { self with
      inputs := inputs2
      state_change := sc.merge_spent self.state_change alloc.state }

/-- `IfaceOp::merge_received` (contract.rs lines 195-201). -/
def merge_received (sc : StateChangeImpl S C) (self : IfaceOp C)
    (alloc : OutputAssignment S) : Option (IfaceOp C) :=
  (ordSetPush self.opids alloc.opoutOp).map fun opids2 =>
    { self with
      opids := opids2
      state_change := sc.merge_received self.state_change alloc.state }

end IfaceOp

/-- The result map of the aggregation, `HashMap<XWitnessId, IfaceOp<C>>`,
modelled as an association list with unique keys. -/
abbrev OpsMap (C : Type) : Type := List (Nat × IfaceOp C)

/-- `HashMap::get`/`get_mut` lookup. -/
def mapGet {C : Type} (m : OpsMap C) (k : Nat) : Option (IfaceOp C) :=
  (m.find? (fun p => p.1 == k)).map Prod.snd

/-- In-place update of the entry under key `k` (the effect of mutating the
result of `HashMap::get_mut`). -/
def mapSet {C : Type} (m : OpsMap C) (k : Nat) (v : IfaceOp C) : OpsMap C :=
  m.map fun p => if p.1 = k then (k, v) else p

/-- One step of the first loop of `ContractIface::operations` (contract.rs
lines 397-406): a candidate spend allocation without a witness id is skipped;
otherwise the entry under its witness id is merged or created via
`from_spent`. -/
def opsStepSpent {S C : Type} (sc : StateChangeImpl S C) (m : OpsMap C)
    (alloc : OutputAssignment S) : Option (OpsMap C) :=
  match alloc.witness with
  | none => some m
  | some witness_id =>
    match mapGet m witness_id with
    | some op => (IfaceOp.merge_spent sc op alloc).map (mapSet m witness_id)
    | none => some (m ++ [(witness_id, IfaceOp.from_spent sc alloc)])

/-- One step of the second loop of `ContractIface::operations` (contract.rs
lines 408-417). -/
def opsStepReceived {S C : Type} (sc : StateChangeImpl S C) (m : OpsMap C)
    (alloc : OutputAssignment S) : Option (OpsMap C) :=
  match alloc.witness with
  | none => some m
  | some witness_id =>
    match mapGet m witness_id with
    | some op => (IfaceOp.merge_received sc op alloc).map (mapSet m witness_id)
    | none => some (m ++ [(witness_id, IfaceOp.from_received sc alloc)])

/-- `ContractIface::operations` (contract.rs lines 377-420): fold the
candidate spend allocations, then the interface-filtered receive allocations,
into a map from settling-transaction (witness) id to `IfaceOp`; `none` models
the fatal duplicate-operation-id panic. The `transmute`/`from` payload
conversions of the source are identities in this model since both inputs are
already presented at the common state type `S`. -/
def operations {S C : Type} (sc : StateChangeImpl S C)
    (state allocations : List (OutputAssignment S)) : Option (OpsMap C) := do
  let m ← state.foldlM (opsStepSpent sc) []
  allocations.foldlM (opsStepReceived sc) m

end RgbStd

namespace RgbStd

/-- `ContractError` (contract.rs lines 41-46): the single recoverable error
kind, carrying the offending field name. -/
inductive ContractError : Type where
  | FieldNameUnknown (name : String)
  deriving DecidableEq, Repr

/-- The result of a query: `ok` a value, `err` a recoverable `Result::Err`,
or `panic` for a fatal Rust panic (`expect`/`unreachable!`). -/
inductive Outcome (α : Type) : Type where
  | ok (val : α)
  | err (e : ContractError)
  | panic
  deriving DecidableEq, Repr

/-- The part of `IfaceImpl` the embedded code consults: field-name to
schema-type-id bindings for global and owned (assignment) state. -/
structure IfaceImpl where
  global_type : String → Option Nat
  assignments_type : String → Option Nat

/-- `ContractIface<S>` (contract.rs lines 207-213) together with the
capabilities it reads from its `ContractStateRead` state store, its schema
and its type system. `schemaGlobal` models `schema.global_types.get`
(yielding the semantic type id of a global type); `stateGlobal` models
`state.global(type_id)` (`none` = the store rejects the type id, a fatal
schema mismatch); `decode` models
`types.strict_deserialize_type(sem_id, bytes)` (`none` = fatal decode
failure); the four `*All` lists model `state.rights_all()`,
`state.fungible_all()`, `state.data_all()` and `state.attach_all()` in store
order, with `VoidState` as `Unit` and the fungible/data/attachment payloads
as opaque `Nat`s. -/
structure ContractIface where
  iface : IfaceImpl
  schemaGlobal : Nat → Option Nat
  stateGlobal : Nat → Option (List (List Nat))
  decode : Nat → List Nat → Option Nat
  rightsAll : List (OutputAssignment Unit)
  fungibleAll : List (OutputAssignment Nat)
  dataAll : List (OutputAssignment Nat)
  attachAll : List (OutputAssignment Nat)

namespace ContractIface

/-- `ContractIface::global` (contract.rs lines 222-246): resolve the field
name (unknown-field error if unbound), then fetch the schema entry, the raw
global records and decode each — every failure past the name check is a
fatal `expect`. -/
def global (c : ContractIface) (name : String) : Outcome (List Nat) :=
  match c.iface.global_type name with
  | none => Outcome.err (ContractError.FieldNameUnknown name)
  | some type_id =>
    match c.schemaGlobal type_id with
    | none => Outcome.panic
    | some semId =>
      match c.stateGlobal type_id with
      | none => Outcome.panic
      | some datas =>
        match datas.mapM (c.decode semId) with
        | none => Outcome.panic
        | some vals => Outcome.ok vals

/-- `ContractIface::extract_state` (contract.rs lines 248-269): resolve the
field name to a bound assignment-type id (unknown-field error if unbound),
filter the kind's records by that id and by the outpoint filter, and convert
each (`transmute`, a payload conversion `conv`). -/
def extract_state {A U : Type} (c : ContractIface)
    (state : List (OutputAssignment A)) (name : String) (conv : A → U)
    (filter : Nat → Bool) : Outcome (List (OutputAssignment U)) :=
  match c.iface.assignments_type name with
  | none => Outcome.err (ContractError.FieldNameUnknown name)
  | some type_id =>
    Outcome.ok
      (((state.filter (fun outp => outp.opoutTy == type_id)).filter
        (fun outp => filter outp.seal)).map (OutputAssignment.mapState conv))

/-- `ContractIface::rights` (contract.rs lines 271-277). -/
def rights (c : ContractIface) (name : String) (filter : Nat → Bool) :
    Outcome (List (OutputAssignment Unit)) :=
  c.extract_state c.rightsAll name id filter

/-- `ContractIface::rights_all` (contract.rs lines 279-287): the collected
variant; `collect` is the identity on lists. -/
def rights_all (c : ContractIface) (name : String) (filter : Nat → Bool) :
    Outcome (List (OutputAssignment Unit)) :=
  c.rights name filter

/-- `ContractIface::fungible` (contract.rs lines 289-295). -/
def fungible (c : ContractIface) (name : String) (filter : Nat → Bool) :
    Outcome (List (OutputAssignment Nat)) :=
  c.extract_state c.fungibleAll name id filter

/-- `ContractIface::fungible_all` (contract.rs lines 297-305). -/
def fungible_all (c : ContractIface) (name : String) (filter : Nat → Bool) :
    Outcome (List (OutputAssignment Nat)) :=
  c.fungible name filter

/-- `ContractIface::data` (contract.rs lines 307-313). -/
def data (c : ContractIface) (name : String) (filter : Nat → Bool) :
    Outcome (List (OutputAssignment Nat)) :=
  c.extract_state c.dataAll name id filter

/-- `ContractIface::data_all` (contract.rs lines 315-323). -/
def data_all (c : ContractIface) (name : String) (filter : Nat → Bool) :
    Outcome (List (OutputAssignment Nat)) :=
  c.data name filter

/-- `ContractIface::attachments` (contract.rs lines 325-331). -/
def attachments (c : ContractIface) (name : String) (filter : Nat → Bool) :
    Outcome (List (OutputAssignment Nat)) :=
  c.extract_state c.attachAll name id filter

/-- `ContractIface::attachments_all` (contract.rs lines 333-341). -/
def attachments_all (c : ContractIface) (name : String) (filter : Nat → Bool) :
    Outcome (List (OutputAssignment Nat)) :=
  c.attachments name filter

end ContractIface

/-- `AllocatedState` (contract.rs lines 57-79): the generic tagged union over
the four state kinds. -/
inductive AllocatedState : Type where
  | Void
  | Amount (a : Nat)
  | Data (d : Nat)
  | Attachment (x : Nat)
  deriving DecidableEq, Repr

/-- The inner helper `f` of `ContractIface::allocations` (contract.rs lines
347-360): filter one kind's records by the outpoint filter and convert each
into the generic representation. -/
def allocFilterMap {S U : Type} (filter : Nat → Bool) (conv : S → U)
    (state : List (OutputAssignment S)) : List (OutputAssignment U) :=
  (state.filter (fun outp => filter outp.seal)).map (OutputAssignment.mapState conv)

/-- `ContractIface::allocations` (contract.rs lines 343-367): chain the four
kinds' filtered records — rights, then fungible, then data, then attachment —
under the generic `AllocatedState` representation. -/
def ContractIface.allocations (c : ContractIface) (filter : Nat → Bool) :
    List (OutputAssignment AllocatedState) :=
  allocFilterMap filter (fun _ => AllocatedState.Void) c.rightsAll
    ++ allocFilterMap filter AllocatedState.Amount c.fungibleAll
    ++ allocFilterMap filter AllocatedState.Data c.dataAll
    ++ allocFilterMap filter AllocatedState.Attachment c.attachAll

namespace ContractIface

/-- `ContractIface::fungible_ops` (contract.rs lines 422-434): aggregate all
fungible allocations as candidate spends against the interface-filtered
receive allocations of one field; the `?` on the field query propagates the
unknown-field error, and a fatal panic inside `operations` stays fatal. -/
def fungible_ops {C : Type} (sc : StateChangeImpl Nat C) (c : ContractIface)
    (name : String) (filter : Nat → Bool) : Outcome (OpsMap C) :=
  match c.fungible name filter with
  | Outcome.err e => Outcome.err e
  | Outcome.panic => Outcome.panic
  | Outcome.ok allocs =>
    match operations sc (c.fungibleAll.map (OutputAssignment.mapState id)) allocs with
    | none => Outcome.panic
    | some m => Outcome.ok m

/-- `ContractIface::data_ops` (contract.rs lines 436-448). -/
def data_ops {C : Type} (sc : StateChangeImpl Nat C) (c : ContractIface)
    (name : String) (filter : Nat → Bool) : Outcome (OpsMap C) :=
  match c.data name filter with
  | Outcome.err e => Outcome.err e
  | Outcome.panic => Outcome.panic
  | Outcome.ok allocs =>
    match operations sc (c.dataAll.map (OutputAssignment.mapState id)) allocs with
    | none => Outcome.panic
    | some m => Outcome.ok m

/-- `ContractIface::rights_ops` (contract.rs lines 450-462). -/
def rights_ops {C : Type} (sc : StateChangeImpl Unit C) (c : ContractIface)
    (name : String) (filter : Nat → Bool) : Outcome (OpsMap C) :=
  match c.rights name filter with
  | Outcome.err e => Outcome.err e
  | Outcome.panic => Outcome.panic
  | Outcome.ok allocs =>
    match operations sc (c.rightsAll.map (OutputAssignment.mapState id)) allocs with
    | none => Outcome.panic
    | some m => Outcome.ok m

/-- `ContractIface::attachment_ops` (contract.rs lines 464-476). -/
def attachment_ops {C : Type} (sc : StateChangeImpl Nat C) (c : ContractIface)
    (name : String) (filter : Nat → Bool) : Outcome (OpsMap C) :=
  match c.attachments name filter with
  | Outcome.err e => Outcome.err e
  | Outcome.panic => Outcome.panic
  | Outcome.ok allocs =>
    match operations sc (c.attachAll.map (OutputAssignment.mapState id)) allocs with
    | none => Outcome.panic
    | some m => Outcome.ok m

end ContractIface

/-- Modelled from the spec: `Amount::from_strict_val_unchecked` lives in the
`invoice` workspace crate, outside the embedded sources; it reinterprets one
decoded global record as a fungible amount, modelled as the identity on the
opaque `Nat` representation of decoded values. -/
def amountFromStrictVal (v : Nat) : Nat := v

/-- Modelled from the spec: the subtraction on `invoice::Amount` used by
`Rgb20::total_supply` lives in the `invoice` workspace crate, outside the
embedded sources; per the spec it is the unguarded 64-bit subtraction of the
amount domain, with no check that the subtrahend does not exceed the minuend,
modelled as wrapping subtraction modulo `2 ^ 64`. -/
def amountSub (a b : Nat) : Nat := (a + (2 ^ 64 - b % 2 ^ 64)) % 2 ^ 64

namespace Rgb20

/-- `Rgb20::total_issued_supply` (rgb20.rs lines 724-731): sum the decoded
`issuedSupply` records; an unbound field is fatal
(`expect "RGB20 interface requires global issuedSupply"`). -/
def total_issued_supply (c : ContractIface) : Outcome Nat :=
  match c.global "issuedSupply" with
  | Outcome.ok vals => Outcome.ok ((vals.map amountFromStrictVal).sum)
  | Outcome.err _ => Outcome.panic
  | Outcome.panic => Outcome.panic

/-- `Rgb20::total_burned_supply` (rgb20.rs lines 733-740): sum the decoded
`burnedSupply` records; `unwrap_or_default()` swallows the recoverable
unknown-field error, summing over the empty default. -/
def total_burned_supply (c : ContractIface) : Outcome Nat :=
  match c.global "burnedSupply" with
  | Outcome.ok vals => Outcome.ok ((vals.map amountFromStrictVal).sum)
  | Outcome.err _ => Outcome.ok ((([] : List Nat).map amountFromStrictVal).sum)
  | Outcome.panic => Outcome.panic

/-- `Rgb20::total_replaced_supply` (rgb20.rs lines 742-749). -/
def total_replaced_supply (c : ContractIface) : Outcome Nat :=
  match c.global "replacedSupply" with
  | Outcome.ok vals => Outcome.ok ((vals.map amountFromStrictVal).sum)
  | Outcome.err _ => Outcome.ok ((([] : List Nat).map amountFromStrictVal).sum)
  | Outcome.panic => Outcome.panic

/-- `Rgb20::total_supply` (rgb20.rs line 751): issued minus burned. -/
def total_supply (c : ContractIface) : Outcome Nat :=
  match total_issued_supply c with
  | Outcome.ok issued =>
    match total_burned_supply c with
    | Outcome.ok burned => Outcome.ok (amountSub issued burned)
    | Outcome.err e => Outcome.err e
    | Outcome.panic => Outcome.panic
  | Outcome.err e => Outcome.err e
  | Outcome.panic => Outcome.panic

end Rgb20

/-- A sample fungible allocation with a settled witness id, used by the
concrete witnesses below. -/
def sampleAlloc : OutputAssignment Nat :=
  { opoutOp := 1, opoutTy := 2, opoutNo := 0, «seal» := 3, witness := some 7, state := 100 }

/-- An arbitrary `StateChange` instance over `VoidState`, used to instantiate
the generic rights-kind aggregation in concrete witnesses. -/
def unitStateChange : StateChangeImpl Unit AmountChange :=
  { from_spent := fun _ => AmountChange.Zero
    from_received := fun _ => AmountChange.Zero
    merge_spent := fun c _ => c
    merge_received := fun c _ => c }

/-- A contract instance with no bound fields, failing schema/store/decoder
capabilities and non-empty stores: used to exhibit that the unknown-field
check precedes any decode or record processing. -/
def unboundIface : ContractIface :=
  { iface := { global_type := fun _ => none, assignments_type := fun _ => none }
    schemaGlobal := fun _ => none
    stateGlobal := fun _ => none
    decode := fun _ _ => none
    rightsAll := [{ opoutOp := 0, opoutTy := 0, opoutNo := 0, «seal» := 0,
                    witness := none, state := () }]
    fungibleAll := [sampleAlloc]
    dataAll := [sampleAlloc]
    attachAll := [sampleAlloc] }

/-- A fungible allocation bound to assignment type 5 (matching the
`assetOwner` binding of `supplyIface`). -/
def fA : OutputAssignment Nat :=
  { opoutOp := 1, opoutTy := 5, opoutNo := 0, «seal» := 3, witness := some 7, state := 30 }

/-- A fungible allocation bound to a different assignment type 6. -/
def fB : OutputAssignment Nat :=
  { opoutOp := 2, opoutTy := 6, opoutNo := 0, «seal» := 4, witness := some 8, state := 70 }

/-- A contract instance with `issuedSupply` bound to global type 1 (one
record decoding to 5), `burnedSupply` bound to global type 2 (one record
decoding to 9 — more than issued), and `assetOwner` bound to assignment type
5. -/
def supplyIface : ContractIface :=
  { iface :=
      { global_type := fun n =>
          if n = "issuedSupply" then some 1
          else if n = "burnedSupply" then some 2 else none
        assignments_type := fun n => if n = "assetOwner" then some 5 else none }
    schemaGlobal := fun t => some t
    stateGlobal := fun t =>
      if t = 1 then some [[5]] else if t = 2 then some [[9]] else none
    decode := fun _ data => data.head?
    rightsAll := []
    fungibleAll := [fA, fB]
    dataAll := []
    attachAll := [] }

/-- The per-entry property claim C3 asserts, relative to the list `l` of
allocations the aggregation has seen. -/
def EntriesOk {S C : Type} (l : List (OutputAssignment S)) (m : OpsMap C) : Prop :=
  ∀ p ∈ m, (∃ a ∈ l, a.witness = some p.1) ∧
    (p.2.inputs ≠ [] ∨ p.2.opids ≠ [])

/-- The per-entry property claim C8 asserts of an aggregation result map. -/
def PayersEmpty {C : Type} (m : OpsMap C) : Prop :=
  ∀ p ∈ m, p.2.payers = [] ∧ p.2.beneficiaries = []

end RgbStd

namespace RgbStd

open AmountChange

lemma merge_spent_toInt (c : AmountChange) (a : Nat) :
    (c.merge_spent a).toInt = c.toInt - (a : Int) := by
  cases c with
  | Dec neg => simp only [merge_spent, toInt]; omega
  | Zero => simp only [merge_spent, toInt]; omega
  | Inc pos =>
    rcases lt_trichotomy a pos with h | h | h
    · simp only [merge_spent, Nat.compare_eq_lt.2 h, toInt]; omega
    · simp only [merge_spent, Nat.compare_eq_eq.2 h, toInt]; omega
    · simp only [merge_spent, Nat.compare_eq_gt.2 h, toInt]; omega

lemma merge_received_toInt (c : AmountChange) (a : Nat) :
    (c.merge_received a).toInt = c.toInt + (a : Int) := by
  cases c with
  | Inc pos => simp only [merge_received, toInt]; omega
  | Zero => simp only [merge_received, toInt]; omega
  | Dec neg =>
    rcases lt_trichotomy a neg with h | h | h
    · simp only [merge_received, Nat.compare_eq_lt.2 h, toInt]; omega
    · simp only [merge_received, Nat.compare_eq_eq.2 h, toInt]; omega
    · simp only [merge_received, Nat.compare_eq_gt.2 h, toInt]; omega

lemma applyEvent_toInt (c : AmountChange) (e : AmountEvent) :
    (applyEvent c e).toInt = c.toInt + e.delta := by
  cases e with
  | spend a => simp only [applyEvent, AmountEvent.delta, merge_spent_toInt]; omega
  | receive a => simp only [applyEvent, AmountEvent.delta, merge_received_toInt]

lemma initEvent_eq_applyEvent (e : AmountEvent) :
    initEvent e = applyEvent AmountChange.Zero e := by
  cases e <;> rfl

lemma netOf_foldl_shift (l : List AmountEvent) (s : Int) :
    l.foldl (fun s e => s + e.delta) s = s + netOf l := by
  induction l generalizing s with
  | nil => simp [netOf]
  | cons e es ih =>
    have h1 : (e :: es).foldl (fun s ev => s + ev.delta) s
        = es.foldl (fun s ev => s + ev.delta) (s + e.delta) := rfl
    have h2 : netOf (e :: es) = es.foldl (fun s ev => s + ev.delta) (0 + e.delta) := rfl
    rw [h1, ih, h2, ih]; ring

lemma foldl_applyEvent_toInt (l : List AmountEvent) (c : AmountChange) :
    (l.foldl applyEvent c).toInt = c.toInt + netOf l := by
  induction l generalizing c with
  | nil => simp [netOf]
  | cons e es ih =>
    have h2 : netOf (e :: es) = es.foldl (fun s ev => s + ev.delta) (0 + e.delta) := rfl
    simp only [List.foldl_cons, ih, applyEvent_toInt]
    rw [h2, netOf_foldl_shift]; ring

lemma merge_spent_canonical (c : AmountChange) (a : Nat)
    (hc : c.Canonical) (ha : 0 < a) : (c.merge_spent a).Canonical := by
  cases c with
  | Dec neg => simp only [merge_spent, Canonical] at *; omega
  | Zero => simpa only [merge_spent, Canonical] using ha
  | Inc pos =>
    simp only [Canonical] at hc
    rcases lt_trichotomy a pos with h | h | h
    · simp only [merge_spent, Nat.compare_eq_lt.2 h, Canonical]; omega
    · simp only [merge_spent, Nat.compare_eq_eq.2 h, Canonical]
    · simp only [merge_spent, Nat.compare_eq_gt.2 h, Canonical]; omega

lemma merge_received_canonical (c : AmountChange) (a : Nat)
    (hc : c.Canonical) (ha : 0 < a) : (c.merge_received a).Canonical := by
  cases c with
  | Inc pos => simp only [merge_received, Canonical] at *; omega
  | Zero => simpa only [merge_received, Canonical] using ha
  | Dec neg =>
    simp only [Canonical] at hc
    rcases lt_trichotomy a neg with h | h | h
    · simp only [merge_received, Nat.compare_eq_lt.2 h, Canonical]; omega
    · simp only [merge_received, Nat.compare_eq_eq.2 h, Canonical]
    · simp only [merge_received, Nat.compare_eq_gt.2 h, Canonical]; omega

lemma applyEvent_canonical (c : AmountChange) (e : AmountEvent)
    (hc : c.Canonical) (he : 0 < e.magnitude) : (applyEvent c e).Canonical := by
  cases e with
  | spend a => exact merge_spent_canonical c a hc he
  | receive a => exact merge_received_canonical c a hc he

lemma foldl_applyEvent_canonical (l : List AmountEvent) (c : AmountChange)
    (hc : c.Canonical) (hl : ∀ ev ∈ l, 0 < ev.magnitude) :
    (l.foldl applyEvent c).Canonical := by
  induction l generalizing c with
  | nil => exact hc
  | cons e es ih =>
    simp only [List.foldl_cons]
    exact ih (applyEvent c e) (applyEvent_canonical c e hc (hl e (by simp)))
      (fun ev hev => hl ev (by simp [hev]))

lemma canonical_eq_reify (c : AmountChange) (hc : c.Canonical) :
    c = reify c.toInt := by
  cases c with
  | Dec a =>
    simp only [Canonical] at hc
    show AmountChange.Dec a = reify (-(a : Int))
    unfold reify
    rw [if_pos (by omega : -(a : Int) < 0)]
    congr 1
    omega
  | Zero => simp [toInt, reify]
  | Inc a =>
    simp only [Canonical] at hc
    show AmountChange.Inc a = reify ((a : Int))
    unfold reify
    rw [if_neg (by omega : ¬(a : Int) < 0), if_neg (by omega : ¬(a : Int) = 0)]
    simp

lemma reify_eq_zero_iff (z : Int) : reify z = AmountChange.Zero ↔ z = 0 := by
  rcases lt_trichotomy z 0 with h | h | h
  · unfold reify
    rw [if_pos h]
    exact ⟨fun hc => AmountChange.noConfusion hc, fun hz => absurd h (by omega)⟩
  · subst h; simp [reify]
  · unfold reify
    rw [if_neg (by omega : ¬z < 0), if_neg (by omega : ¬z = 0)]
    exact ⟨fun hc => AmountChange.noConfusion hc, fun hz => absurd h (by omega)⟩

end RgbStd

namespace RgbStd

open AmountChange

/-- Claim C1, counterexample: the claim as stated quantifies over every
finite sequence of spend/receive events, but folding the single event
"spend 0" through `AmountChange` yields `Dec 0`, whose arithmetic net is
exactly zero while the result is not the `Zero` variant; so "the result is
`Zero` if and only if the net is exactly zero" fails at this input. -/
theorem c1_zero_magnitude_counterexample :
    netOf [AmountEvent.spend 0] = 0 ∧
    foldEvents (AmountEvent.spend 0) [] = AmountChange.Dec 0 ∧
    foldEvents (AmountEvent.spend 0) [] ≠ AmountChange.Zero := by
  decide

/-- Claim C1 (amended): for every finite sequence of spend and receive
amount events of strictly positive magnitude folded through `AmountChange`
(starting from `from_spent`/`from_received` and folding the rest via
`merge_spent`/`merge_received`), in any order, the resulting variant and
magnitude equal the arithmetic net (total received minus total spent):
`Inc m` when the net is `+m`, `Dec m` when the net is `-m`, `Zero` exactly
when the net is zero; and (unconditionally) `merge_spent` followed by
`merge_received` of equal magnitude on a fresh change yields `Zero`. -/
theorem c1_fold_matches_net (e : AmountEvent) (es : List AmountEvent)
    (hpos : ∀ ev ∈ e :: es, 0 < ev.magnitude) :
    foldEvents e es = reify (netOf (e :: es)) ∧
    (foldEvents e es = AmountChange.Zero ↔ netOf (e :: es) = 0) ∧
    ∀ a : Nat, (AmountChange.Zero.merge_spent a).merge_received a = AmountChange.Zero := by
  have hfold : foldEvents e es = (e :: es).foldl applyEvent AmountChange.Zero := by
    simp only [foldEvents, List.foldl_cons, initEvent_eq_applyEvent]
  have hint : ((e :: es).foldl applyEvent AmountChange.Zero).toInt = netOf (e :: es) := by
    rw [foldl_applyEvent_toInt]; simp [toInt]
  have hcan : ((e :: es).foldl applyEvent AmountChange.Zero).Canonical :=
    foldl_applyEvent_canonical _ _ trivial hpos
  have hmain : foldEvents e es = reify (netOf (e :: es)) := by
    rw [hfold, ← hint]
    exact canonical_eq_reify _ hcan
  refine ⟨hmain, ?_, ?_⟩
  · rw [hmain]; exact reify_eq_zero_iff _
  · intro a
    show (AmountChange.Dec a).merge_received a = AmountChange.Zero
    simp only [merge_received, Nat.compare_eq_eq.2 rfl]

/-- Witness for C1 (amended) at the concrete positive-magnitude sequence
spend 2 then receive 5. -/
theorem c1_fold_matches_net_witness :
    foldEvents (AmountEvent.spend 2) [AmountEvent.receive 5]
      = reify (netOf [AmountEvent.spend 2, AmountEvent.receive 5]) ∧
    (foldEvents (AmountEvent.spend 2) [AmountEvent.receive 5] = AmountChange.Zero
      ↔ netOf [AmountEvent.spend 2, AmountEvent.receive 5] = 0) ∧
    ∀ a : Nat, (AmountChange.Zero.merge_spent a).merge_received a = AmountChange.Zero :=
  c1_fold_matches_net (AmountEvent.spend 2) [AmountEvent.receive 5] (by decide)

/-- Claim C2: the fungible `StateChange` instantiation satisfies exactly the
stated case analysis: `from_spent a = Dec a`, `from_received a = Inc a`;
`merge_spent a` maps `Dec n` to `Dec (n + a)`, `Zero` to `Dec a`, and `Inc p`
to `Inc (p - a)` when `a < p`, to `Zero` when `a = p`, to `Dec (a - p)` when
`a > p`; `merge_received` is the exact mirror with `Inc`/`Dec` swapped. -/
theorem c2_statechange_case_analysis (a n p : Nat) :
    from_spent a = AmountChange.Dec a ∧
    from_received a = AmountChange.Inc a ∧
    (AmountChange.Dec n).merge_spent a = AmountChange.Dec (n + a) ∧
    AmountChange.Zero.merge_spent a = AmountChange.Dec a ∧
    (a < p → (AmountChange.Inc p).merge_spent a = AmountChange.Inc (p - a)) ∧
    (a = p → (AmountChange.Inc p).merge_spent a = AmountChange.Zero) ∧
    (a > p → (AmountChange.Inc p).merge_spent a = AmountChange.Dec (a - p)) ∧
    (AmountChange.Inc n).merge_received a = AmountChange.Inc (n + a) ∧
    AmountChange.Zero.merge_received a = AmountChange.Inc a ∧
    (a < p → (AmountChange.Dec p).merge_received a = AmountChange.Dec (p - a)) ∧
    (a = p → (AmountChange.Dec p).merge_received a = AmountChange.Zero) ∧
    (a > p → (AmountChange.Dec p).merge_received a = AmountChange.Inc (a - p)) := by
  refine ⟨rfl, rfl, rfl, rfl, ?_, ?_, ?_, rfl, rfl, ?_, ?_, ?_⟩
  · intro h; simp only [merge_spent, Nat.compare_eq_lt.2 h]
  · intro h; simp only [merge_spent, Nat.compare_eq_eq.2 h]
  · intro h; simp only [merge_spent, Nat.compare_eq_gt.2 h]
  · intro h; simp only [merge_received, Nat.compare_eq_lt.2 h]
  · intro h; simp only [merge_received, Nat.compare_eq_eq.2 h]
  · intro h; simp only [merge_received, Nat.compare_eq_gt.2 h]

/-- Witness for C2 at concrete magnitudes exercising all three comparison
branches. -/
theorem c2_statechange_case_analysis_witness :
    (2 < 5 ∧ (AmountChange.Inc 5).merge_spent 2 = AmountChange.Inc 3) ∧
    (7 > 5 ∧ (AmountChange.Inc 5).merge_spent 7 = AmountChange.Dec 2) ∧
    (AmountChange.Dec 4).merge_received 4 = AmountChange.Zero := by
  refine ⟨⟨by decide, ?_⟩, ⟨by decide, ?_⟩, ?_⟩
  · have h := (c2_statechange_case_analysis 2 0 5).2.2.2.2.1 (by decide)
    simpa using h
  · have h := (c2_statechange_case_analysis 7 0 5).2.2.2.2.2.2.1 (by decide)
    simpa using h
  · exact (c2_statechange_case_analysis 4 0 4).2.2.2.2.2.2.2.2.2.2.1 rfl

/-- Claim C9: the two `AmountChange` implementations of the `StateChange`
contract — the `cmp`-match-based one in `contract.rs` and the
guard-clause-based one in `rgb20.rs` — are extensionally equal: for every
starting change value and every amount, `from_spent`, `from_received`,
`merge_spent` and `merge_received` produce identical results. -/
theorem c9_contract_rgb20_statechange_equiv (c : AmountChange) (a : Nat) :
    from_spent a = from_spent20 a ∧
    from_received a = from_received20 a ∧
    c.merge_spent a = c.merge_spent20 a ∧
    c.merge_received a = c.merge_received20 a := by
  refine ⟨rfl, rfl, ?_, ?_⟩
  · cases c with
    | Dec neg => rfl
    | Zero => rfl
    | Inc pos =>
      rcases lt_trichotomy a pos with h | h | h
      · simp only [merge_spent, Nat.compare_eq_lt.2 h, merge_spent20]
        rw [if_pos h]
      · simp only [merge_spent, Nat.compare_eq_eq.2 h, merge_spent20]
        rw [if_neg (by omega : ¬pos > a), if_pos h.symm]
      · simp only [merge_spent, Nat.compare_eq_gt.2 h, merge_spent20]
        rw [if_neg (by omega : ¬pos > a), if_neg (by omega : ¬pos = a)]
  · cases c with
    | Inc pos => rfl
    | Zero => rfl
    | Dec neg =>
      rcases lt_trichotomy a neg with h | h | h
      · simp only [merge_received, Nat.compare_eq_lt.2 h, merge_received20]
        rw [if_pos h]
      · simp only [merge_received, Nat.compare_eq_eq.2 h, merge_received20]
        rw [if_neg (by omega : ¬neg > a), if_pos h.symm]
      · simp only [merge_received, Nat.compare_eq_gt.2 h, merge_received20]
        rw [if_neg (by omega : ¬neg > a), if_neg (by omega : ¬neg = a)]

end RgbStd

namespace RgbStd

lemma foldlM_option_inv {α β : Type} (f : β → α → Option β) (P : β → Prop) :
    ∀ (l : List α) (b : β), P b →
    (∀ b' a b2, a ∈ l → P b' → f b' a = some b2 → P b2) →
    ∀ r, l.foldlM f b = some r → P r := by
  intro l
  induction l with
  | nil =>
    intro b hb _ r hr
    simp only [List.foldlM_nil, pure, Option.some.injEq] at hr
    exact hr ▸ hb
  | cons a l ih =>
    intro b hb hstep r hr
    rw [List.foldlM_cons] at hr
    cases hfa : f b a with
    | none => rw [hfa] at hr; simp at hr
    | some b1 =>
      rw [hfa] at hr
      simp only [Option.bind_eq_bind, Option.some_bind] at hr
      exact ih b1 (hstep b a b1 (by simp) hb hfa)
        (fun b' a' b2 ha' hb' hf => hstep b' a' b2 (by simp [ha']) hb' hf) r hr

lemma ordSetPush_eq (s : List Nat) (x : Nat) (s2 : List Nat)
    (h : ordSetPush s x = some s2) : s2 = s ++ [x] := by
  unfold ordSetPush at h
  split at h
  · exact Option.noConfusion h
  · exact (Option.some.inj h).symm

lemma mem_mapSet {C : Type} (m : OpsMap C) (k : Nat) (v : IfaceOp C)
    (p : Nat × IfaceOp C) (hp : p ∈ mapSet m k v) : p = (k, v) ∨ p ∈ m := by
  unfold mapSet at hp
  rcases List.mem_map.1 hp with ⟨q, hq, hpq⟩
  by_cases h : q.1 = k
  · left; rw [← hpq, if_pos h]
  · right; rw [← hpq, if_neg h]; exact hq

lemma merge_spent_shape {S C : Type} (sc : StateChangeImpl S C) (op op2 : IfaceOp C)
    (alloc : OutputAssignment S) (h : IfaceOp.merge_spent sc op alloc = some op2) :
    op2.inputs = op.inputs ++ [alloc.opoutOp] ∧ op2.opids = op.opids ∧
    op2.payers = op.payers ∧ op2.beneficiaries = op.beneficiaries := by
  unfold IfaceOp.merge_spent at h
  rcases Option.map_eq_some'.1 h with ⟨s2, hpush, hop⟩
  rw [← hop]
  exact ⟨ordSetPush_eq _ _ _ hpush, rfl, rfl, rfl⟩

lemma merge_received_shape {S C : Type} (sc : StateChangeImpl S C) (op op2 : IfaceOp C)
    (alloc : OutputAssignment S) (h : IfaceOp.merge_received sc op alloc = some op2) :
    op2.opids = op.opids ++ [alloc.opoutOp] ∧ op2.inputs = op.inputs ∧
    op2.payers = op.payers ∧ op2.beneficiaries = op.beneficiaries := by
  unfold IfaceOp.merge_received at h
  rcases Option.map_eq_some'.1 h with ⟨s2, hpush, hop⟩
  rw [← hop]
  exact ⟨ordSetPush_eq _ _ _ hpush, rfl, rfl, rfl⟩


lemma opsStepSpent_entriesOk {S C : Type} (sc : StateChangeImpl S C)
    (l : List (OutputAssignment S)) (m : OpsMap C) (alloc : OutputAssignment S)
    (m2 : OpsMap C) (hmem : alloc ∈ l) (hm : EntriesOk l m)
    (h : opsStepSpent sc m alloc = some m2) : EntriesOk l m2 := by
  unfold opsStepSpent at h
  split at h
  next hwit =>
    injection h with h
    exact h ▸ hm
  next w hwit =>
    split at h
    next op hget =>
      rcases Option.map_eq_some'.1 h with ⟨op2, hmerge, hm2⟩
      subst hm2
      intro p hp
      rcases mem_mapSet _ _ _ _ hp with hnew | hold
      · subst hnew
        refine ⟨⟨alloc, hmem, hwit⟩, Or.inl ?_⟩
        rw [(merge_spent_shape sc op op2 alloc hmerge).1]
        simp
      · exact hm p hold
    next hget =>
      injection h with h
      subst h
      intro p hp
      rcases List.mem_append.1 hp with hold | hnew
      · exact hm p hold
      · simp only [List.mem_singleton] at hnew
        subst hnew
        exact ⟨⟨alloc, hmem, hwit⟩, Or.inl (by simp [IfaceOp.from_spent])⟩

lemma opsStepReceived_entriesOk {S C : Type} (sc : StateChangeImpl S C)
    (l : List (OutputAssignment S)) (m : OpsMap C) (alloc : OutputAssignment S)
    (m2 : OpsMap C) (hmem : alloc ∈ l) (hm : EntriesOk l m)
    (h : opsStepReceived sc m alloc = some m2) : EntriesOk l m2 := by
  unfold opsStepReceived at h
  split at h
  next hwit =>
    injection h with h
    exact h ▸ hm
  next w hwit =>
    split at h
    next op hget =>
      rcases Option.map_eq_some'.1 h with ⟨op2, hmerge, hm2⟩
      subst hm2
      intro p hp
      rcases mem_mapSet _ _ _ _ hp with hnew | hold
      · subst hnew
        refine ⟨⟨alloc, hmem, hwit⟩, Or.inr ?_⟩
        rw [(merge_received_shape sc op op2 alloc hmerge).1]
        simp
      · exact hm p hold
    next hget =>
      injection h with h
      subst h
      intro p hp
      rcases List.mem_append.1 hp with hold | hnew
      · exact hm p hold
      · simp only [List.mem_singleton] at hnew
        subst hnew
        exact ⟨⟨alloc, hmem, hwit⟩, Or.inr (by simp [IfaceOp.from_received])⟩

end RgbStd

namespace RgbStd

lemma mapGet_some_mem {C : Type} (m : OpsMap C) (k : Nat) (op : IfaceOp C)
    (h : mapGet m k = some op) : (k, op) ∈ m := by
  unfold mapGet at h
  rcases Option.map_eq_some'.1 h with ⟨p, hfind, hsnd⟩
  have hmem := List.mem_of_find?_eq_some hfind
  have hkey := List.find?_some hfind
  obtain ⟨p1, p2⟩ := p
  simp only [beq_iff_eq] at hkey
  simp only at hsnd
  subst hkey
  subst hsnd
  exact hmem


lemma opsStepSpent_payersEmpty {S C : Type} (sc : StateChangeImpl S C)
    (m : OpsMap C) (alloc : OutputAssignment S) (m2 : OpsMap C)
    (hm : PayersEmpty m) (h : opsStepSpent sc m alloc = some m2) : PayersEmpty m2 := by
  unfold opsStepSpent at h
  split at h
  next hwit =>
    injection h with h
    exact h ▸ hm
  next w hwit =>
    split at h
    next op hget =>
      rcases Option.map_eq_some'.1 h with ⟨op2, hmerge, hm2⟩
      subst hm2
      intro p hp
      rcases mem_mapSet _ _ _ _ hp with hnew | hold
      · subst hnew
        have hshape := merge_spent_shape sc op op2 alloc hmerge
        have hop := hm (w, op) (mapGet_some_mem m w op hget)
        exact ⟨hshape.2.2.1.trans hop.1, hshape.2.2.2.trans hop.2⟩
      · exact hm p hold
    next hget =>
      injection h with h
      subst h
      intro p hp
      rcases List.mem_append.1 hp with hold | hnew
      · exact hm p hold
      · simp only [List.mem_singleton] at hnew
        subst hnew
        exact ⟨rfl, rfl⟩

lemma opsStepReceived_payersEmpty {S C : Type} (sc : StateChangeImpl S C)
    (m : OpsMap C) (alloc : OutputAssignment S) (m2 : OpsMap C)
    (hm : PayersEmpty m) (h : opsStepReceived sc m alloc = some m2) : PayersEmpty m2 := by
  unfold opsStepReceived at h
  split at h
  next hwit =>
    injection h with h
    exact h ▸ hm
  next w hwit =>
    split at h
    next op hget =>
      rcases Option.map_eq_some'.1 h with ⟨op2, hmerge, hm2⟩
      subst hm2
      intro p hp
      rcases mem_mapSet _ _ _ _ hp with hnew | hold
      · subst hnew
        have hshape := merge_received_shape sc op op2 alloc hmerge
        have hop := hm (w, op) (mapGet_some_mem m w op hget)
        exact ⟨hshape.2.2.1.trans hop.1, hshape.2.2.2.trans hop.2⟩
      · exact hm p hold
    next hget =>
      injection h with h
      subst h
      intro p hp
      rcases List.mem_append.1 hp with hold | hnew
      · exact hm p hold
      · simp only [List.mem_singleton] at hnew
        subst hnew
        exact ⟨rfl, rfl⟩


/-- Claim C3: for every input to the operations aggregation that completes
without faulting, the result map contains a key only for witness
(settling-transaction) ids carried by some input allocation — allocations
whose optional witness id is absent contribute nothing — and every `IfaceOp`
value in the result has a non-empty `inputs` (spent) set or a non-empty
`opids` (received) set, or both. -/
theorem c3_operations_keys_and_nonempty {S C : Type} (sc : StateChangeImpl S C)
    (state allocations : List (OutputAssignment S)) (m : OpsMap C)
    (h : operations sc state allocations = some m) :
    ∀ w op, (w, op) ∈ m →
      (∃ a, (a ∈ state ∨ a ∈ allocations) ∧ a.witness = some w) ∧
      (op.inputs ≠ [] ∨ op.opids ≠ []) := by
  unfold operations at h
  cases h1 : state.foldlM (opsStepSpent sc) [] with
  | none => rw [h1] at h; simp at h
  | some m1 =>
    rw [h1] at h
    simp only [Option.bind_eq_bind, Option.some_bind] at h
    have inv1 : EntriesOk (state ++ allocations) m1 :=
      foldlM_option_inv (opsStepSpent sc) (EntriesOk (state ++ allocations)) state []
        (fun p hp => absurd hp (List.not_mem_nil p))
        (fun b a b2 ha hb hf =>
          opsStepSpent_entriesOk sc (state ++ allocations) b a b2
            (List.mem_append_left _ ha) hb hf) m1 h1
    have inv2 : EntriesOk (state ++ allocations) m :=
      foldlM_option_inv (opsStepReceived sc) (EntriesOk (state ++ allocations))
        allocations m1 inv1
        (fun b a b2 ha hb hf =>
          opsStepReceived_entriesOk sc (state ++ allocations) b a b2
            (List.mem_append_right _ ha) hb hf) m h
    intro w op hmem
    rcases inv2 (w, op) hmem with ⟨⟨a2, ha2, hw⟩, hne⟩
    exact ⟨⟨a2, List.mem_append.1 ha2, hw⟩, hne⟩

/-- Witness for C3 at a concrete one-spend input with witness id 7. -/
theorem c3_operations_keys_and_nonempty_witness :
    (∃ a, (a ∈ [sampleAlloc] ∨ a ∈ ([] : List (OutputAssignment Nat))) ∧
      a.witness = some 7) ∧
    ((IfaceOp.from_spent amountStateChange sampleAlloc).inputs ≠ [] ∨
     (IfaceOp.from_spent amountStateChange sampleAlloc).opids ≠ []) :=
  c3_operations_keys_and_nonempty amountStateChange [sampleAlloc] []
    [(7, IfaceOp.from_spent amountStateChange sampleAlloc)] rfl 7
    (IfaceOp.from_spent amountStateChange sampleAlloc) (by simp)

/-- Claim C8: every `IfaceOp` produced by the aggregation algorithm (via
`from_spent`, `from_received`, `merge_spent`, `merge_received` — hence every
value in any `operations` result map) has empty `payers` and empty
`beneficiaries` sets; no aggregation step ever populates them. -/
theorem c8_payers_beneficiaries_never_populated {S C : Type} (sc : StateChangeImpl S C)
    (state allocations : List (OutputAssignment S)) (m : OpsMap C)
    (h : operations sc state allocations = some m) :
    ∀ w op, (w, op) ∈ m → op.payers = [] ∧ op.beneficiaries = [] := by
  unfold operations at h
  cases h1 : state.foldlM (opsStepSpent sc) [] with
  | none => rw [h1] at h; simp at h
  | some m1 =>
    rw [h1] at h
    simp only [Option.bind_eq_bind, Option.some_bind] at h
    have inv1 : PayersEmpty m1 :=
      foldlM_option_inv (opsStepSpent sc) PayersEmpty state []
        (fun p hp => absurd hp (List.not_mem_nil p))
        (fun b a b2 _ hb hf => opsStepSpent_payersEmpty sc b a b2 hb hf) m1 h1
    have inv2 : PayersEmpty m :=
      foldlM_option_inv (opsStepReceived sc) PayersEmpty allocations m1 inv1
        (fun b a b2 _ hb hf => opsStepReceived_payersEmpty sc b a b2 hb hf) m h
    intro w op hmem
    exact inv2 (w, op) hmem

/-- Witness for C8 at a concrete input with one spend and one receive. -/
theorem c8_payers_beneficiaries_never_populated_witness :
    (IfaceOp.from_received amountStateChange sampleAlloc).payers = [] ∧
    (IfaceOp.from_received amountStateChange sampleAlloc).beneficiaries = [] :=
  c8_payers_beneficiaries_never_populated amountStateChange [] [sampleAlloc]
    [(7, IfaceOp.from_received amountStateChange sampleAlloc)] rfl 7
    (IfaceOp.from_received amountStateChange sampleAlloc) (by simp)

end RgbStd

namespace RgbStd


lemma mem_allocFilterMap {S U : Type} (filter : Nat → Bool) (conv : S → U)
    (l : List (OutputAssignment S)) (o : OutputAssignment U) :
    o ∈ allocFilterMap filter conv l ↔
      ∃ r ∈ l, filter r.seal = true ∧ o = OutputAssignment.mapState conv r := by
  unfold allocFilterMap
  constructor
  · intro ho
    rcases List.mem_map.1 ho with ⟨r, hr, rfl⟩
    rcases List.mem_filter.1 hr with ⟨hmem, hf⟩
    exact ⟨r, hmem, hf, rfl⟩
  · rintro ⟨r, hmem, hf, rfl⟩
    exact List.mem_map.2 ⟨r, List.mem_filter.2 ⟨hmem, hf⟩, rfl⟩

/-- Claim C4: for every field name not bound in the interface, each public
query (`global`, `rights`, `fungible`, `data`, `attachments`, their `_all`
variants and the `*_ops` variants) returns the unknown-field error carrying
the offending field name — for every contract state, including ones whose
schema, store and decoder would fault on any access, which shows no decoding
or record processing happens before the check — and the unknown-field error
is the only recoverable error kind any of these queries can return. -/
theorem c4_unknown_field_error {C : Type} (sc : StateChangeImpl Nat C)
    (scv : StateChangeImpl Unit C) (c : ContractIface) (name : String)
    (filter : Nat → Bool)
    (hg : c.iface.global_type name = none)
    (ha : c.iface.assignments_type name = none) :
    c.global name = Outcome.err (ContractError.FieldNameUnknown name) ∧
    c.rights name filter = Outcome.err (ContractError.FieldNameUnknown name) ∧
    c.rights_all name filter = Outcome.err (ContractError.FieldNameUnknown name) ∧
    c.fungible name filter = Outcome.err (ContractError.FieldNameUnknown name) ∧
    c.fungible_all name filter = Outcome.err (ContractError.FieldNameUnknown name) ∧
    c.data name filter = Outcome.err (ContractError.FieldNameUnknown name) ∧
    c.data_all name filter = Outcome.err (ContractError.FieldNameUnknown name) ∧
    c.attachments name filter = Outcome.err (ContractError.FieldNameUnknown name) ∧
    c.attachments_all name filter = Outcome.err (ContractError.FieldNameUnknown name) ∧
    ContractIface.fungible_ops sc c name filter
      = Outcome.err (ContractError.FieldNameUnknown name) ∧
    ContractIface.data_ops sc c name filter
      = Outcome.err (ContractError.FieldNameUnknown name) ∧
    ContractIface.rights_ops scv c name filter
      = Outcome.err (ContractError.FieldNameUnknown name) ∧
    ContractIface.attachment_ops sc c name filter
      = Outcome.err (ContractError.FieldNameUnknown name) ∧
    (∀ e : ContractError, ∃ n, e = ContractError.FieldNameUnknown n) := by
  have hget : ∀ {A U : Type} (st : List (OutputAssignment A)) (conv : A → U),
      c.extract_state st name conv filter
        = Outcome.err (ContractError.FieldNameUnknown name) := by
    intro A U st conv
    unfold ContractIface.extract_state
    rw [ha]
  have hglob : c.global name = Outcome.err (ContractError.FieldNameUnknown name) := by
    unfold ContractIface.global
    rw [hg]
  refine ⟨hglob, ?_, ?_, ?_, ?_, ?_, ?_, ?_, ?_, ?_, ?_, ?_, ?_, ?_⟩
  · exact hget _ _
  · exact hget _ _
  · exact hget _ _
  · exact hget _ _
  · exact hget _ _
  · exact hget _ _
  · exact hget _ _
  · exact hget _ _
  · unfold ContractIface.fungible_ops ContractIface.fungible
    rw [hget _ _]
  · unfold ContractIface.data_ops ContractIface.data
    rw [hget _ _]
  · unfold ContractIface.rights_ops ContractIface.rights
    rw [hget _ _]
  · unfold ContractIface.attachment_ops ContractIface.attachments
    rw [hget _ _]
  · intro e
    cases e with
    | FieldNameUnknown n => exact ⟨n, rfl⟩

/-- Witness for C4 at an unbound field name of a contract whose decoder and
store fault on any access. -/
theorem c4_unknown_field_error_witness :
    ContractIface.global unboundIface "foo"
      = Outcome.err (ContractError.FieldNameUnknown "foo") ∧
    ContractIface.fungible_ops amountStateChange unboundIface "foo" (fun _ => true)
      = Outcome.err (ContractError.FieldNameUnknown "foo") := by
  have h := c4_unknown_field_error amountStateChange unitStateChange unboundIface
    "foo" (fun _ => true) rfl rfl
  exact ⟨h.1, h.2.2.2.2.2.2.2.2.2.1⟩

end RgbStd

namespace RgbStd

lemma mapState_id_fun {S : Type} :
    OutputAssignment.mapState (id : S → S) = id := funext fun _ => rfl

/-- Claim C5: with a bound field name, `extract_state` with the always-true
filter returns exactly the records whose assignment-type id equals the
field's bound id, in store order; with an arbitrary filter, a record appears
in the output iff its assignment-type id matches and its seal passes the
filter; and the per-kind queries `rights`/`fungible`/`data`/`attachments`
are exactly `extract_state` on the respective store, so with the always-true
filter each returns the kind's matching records themselves. -/
theorem c5_extract_state_matches {A U : Type} (c : ContractIface)
    (records : List (OutputAssignment A)) (name : String) (conv : A → U)
    (filter : Nat → Bool) (tid : Nat)
    (hty : c.iface.assignments_type name = some tid) :
    c.extract_state records name conv (fun _ => true)
      = Outcome.ok ((records.filter (fun o => o.opoutTy == tid)).map
          (OutputAssignment.mapState conv)) ∧
    (∀ out, c.extract_state records name conv filter = Outcome.ok out →
      ∀ o, o ∈ out ↔ ∃ r ∈ records, r.opoutTy = tid ∧ filter r.seal = true
        ∧ o = OutputAssignment.mapState conv r) ∧
    c.rights name filter = c.extract_state c.rightsAll name id filter ∧
    c.fungible name filter = c.extract_state c.fungibleAll name id filter ∧
    c.data name filter = c.extract_state c.dataAll name id filter ∧
    c.attachments name filter = c.extract_state c.attachAll name id filter ∧
    c.rights name (fun _ => true)
      = Outcome.ok (c.rightsAll.filter (fun o => o.opoutTy == tid)) ∧
    c.fungible name (fun _ => true)
      = Outcome.ok (c.fungibleAll.filter (fun o => o.opoutTy == tid)) ∧
    c.data name (fun _ => true)
      = Outcome.ok (c.dataAll.filter (fun o => o.opoutTy == tid)) ∧
    c.attachments name (fun _ => true)
      = Outcome.ok (c.attachAll.filter (fun o => o.opoutTy == tid)) := by
  have htrue : ∀ {B V : Type} (st : List (OutputAssignment B)) (cv : B → V),
      c.extract_state st name cv (fun _ => true)
        = Outcome.ok ((st.filter (fun o => o.opoutTy == tid)).map
            (OutputAssignment.mapState cv)) := by
    intro B V st cv
    unfold ContractIface.extract_state
    rw [hty]
    simp only [List.filter_true]
  have hkind : ∀ {B : Type} (st : List (OutputAssignment B)),
      c.extract_state st name id (fun _ => true)
        = Outcome.ok (st.filter (fun o => o.opoutTy == tid)) := by
    intro B st
    rw [htrue st id, mapState_id_fun, List.map_id]
  refine ⟨htrue records conv, ?_, rfl, rfl, rfl, rfl,
    hkind c.rightsAll, hkind c.fungibleAll, hkind c.dataAll, hkind c.attachAll⟩
  intro out hout o
  unfold ContractIface.extract_state at hout
  rw [hty] at hout
  injection hout with hout
  rw [← hout]
  constructor
  · intro ho
    rcases List.mem_map.1 ho with ⟨r, hr, rfl⟩
    rcases List.mem_filter.1 hr with ⟨hr2, hq⟩
    rcases List.mem_filter.1 hr2 with ⟨hrmem, hp⟩
    exact ⟨r, hrmem, by simpa using hp, hq, rfl⟩
  · rintro ⟨r, hrmem, hty2, hfil, rfl⟩
    exact List.mem_map.2
      ⟨r, List.mem_filter.2 ⟨List.mem_filter.2 ⟨hrmem, by simpa using hty2⟩, hfil⟩, rfl⟩

/-- Witness for C5: the `assetOwner` field of the sample contract is bound to
assignment type 5, and eager extraction under the always-true filter returns
exactly the store records carrying that type. -/
theorem c5_extract_state_matches_witness :
    ContractIface.extract_state supplyIface supplyIface.fungibleAll "assetOwner" id
      (fun _ => true)
      = Outcome.ok ((supplyIface.fungibleAll.filter (fun o => o.opoutTy == 5)).map
          (OutputAssignment.mapState id)) ∧
    ContractIface.fungible supplyIface "assetOwner" (fun _ => true)
      = Outcome.ok (supplyIface.fungibleAll.filter (fun o => o.opoutTy == 5)) := by
  have h := c5_extract_state_matches supplyIface supplyIface.fungibleAll "assetOwner"
    id (fun _ => true) 5 rfl
  exact ⟨h.1, h.2.2.2.2.2.2.2.1⟩

end RgbStd

namespace RgbStd

/-- Claim C6: for every outpoint filter, `allocations` returns the union of
the four kinds' filtered records grouped in the fixed kind order rights,
fungible, data, attachment — each kind internally preserving store order
(the concatenation of the four per-kind filtered-and-converted lists) — a
generic record is in the result iff it is the conversion of a store record
whose seal passes the filter, and no record rejected by the filter is
admitted. -/
theorem c6_allocations_union_order (c : ContractIface) (filter : Nat → Bool) :
    c.allocations filter =
      (c.rightsAll.filter (fun o => filter o.seal)).map
          (OutputAssignment.mapState fun _ => AllocatedState.Void)
        ++ (c.fungibleAll.filter (fun o => filter o.seal)).map
          (OutputAssignment.mapState AllocatedState.Amount)
        ++ (c.dataAll.filter (fun o => filter o.seal)).map
          (OutputAssignment.mapState AllocatedState.Data)
        ++ (c.attachAll.filter (fun o => filter o.seal)).map
          (OutputAssignment.mapState AllocatedState.Attachment) ∧
    (∀ o, o ∈ c.allocations filter →
      (∃ r ∈ c.rightsAll, filter r.seal = true
        ∧ o = OutputAssignment.mapState (fun _ => AllocatedState.Void) r) ∨
      (∃ r ∈ c.fungibleAll, filter r.seal = true
        ∧ o = OutputAssignment.mapState AllocatedState.Amount r) ∨
      (∃ r ∈ c.dataAll, filter r.seal = true
        ∧ o = OutputAssignment.mapState AllocatedState.Data r) ∨
      (∃ r ∈ c.attachAll, filter r.seal = true
        ∧ o = OutputAssignment.mapState AllocatedState.Attachment r)) ∧
    (∀ o, o ∈ c.allocations filter → filter o.seal = true) := by
  refine ⟨rfl, ?_, ?_⟩
  · intro o ho
    unfold ContractIface.allocations at ho
    rcases List.mem_append.1 ho with h3 | h4
    · rcases List.mem_append.1 h3 with h2 | hd
      · rcases List.mem_append.1 h2 with hr | hf
        · exact Or.inl ((mem_allocFilterMap _ _ _ _).1 hr)
        · exact Or.inr (Or.inl ((mem_allocFilterMap _ _ _ _).1 hf))
      · exact Or.inr (Or.inr (Or.inl ((mem_allocFilterMap _ _ _ _).1 hd)))
    · exact Or.inr (Or.inr (Or.inr ((mem_allocFilterMap _ _ _ _).1 h4)))
  · intro o ho
    unfold ContractIface.allocations at ho
    rcases List.mem_append.1 ho with h3 | h4
    · rcases List.mem_append.1 h3 with h2 | hd
      · rcases List.mem_append.1 h2 with hr | hf
        · rcases (mem_allocFilterMap _ _ _ _).1 hr with ⟨r, _, hfil, rfl⟩
          exact hfil
        · rcases (mem_allocFilterMap _ _ _ _).1 hf with ⟨r, _, hfil, rfl⟩
          exact hfil
      · rcases (mem_allocFilterMap _ _ _ _).1 hd with ⟨r, _, hfil, rfl⟩
        exact hfil
    · rcases (mem_allocFilterMap _ _ _ _).1 h4 with ⟨r, _, hfil, rfl⟩
      exact hfil

/-- Claim C7: `total_supply` is `total_issued_supply` minus
`total_burned_supply` under the unguarded amount subtraction — with no check
that the burned total does not exceed the issued total, the formula holds for
all pairs of totals — and each total is the sum of every decoded global
record under its field name. -/
theorem c7_total_supply_unguarded_sub (c : ContractIface) (issued burned : Nat)
    (hi : Rgb20.total_issued_supply c = Outcome.ok issued)
    (hb : Rgb20.total_burned_supply c = Outcome.ok burned) :
    Rgb20.total_supply c = Outcome.ok (amountSub issued burned) ∧
    (∀ vals, c.global "issuedSupply" = Outcome.ok vals →
      issued = (vals.map amountFromStrictVal).sum) ∧
    (∀ vals, c.global "burnedSupply" = Outcome.ok vals →
      burned = (vals.map amountFromStrictVal).sum) := by
  refine ⟨?_, ?_, ?_⟩
  · unfold Rgb20.total_supply
    rw [hi, hb]
  · intro vals hv
    unfold Rgb20.total_issued_supply at hi
    rw [hv] at hi
    injection hi with hi
    exact hi.symm
  · intro vals hv
    unfold Rgb20.total_burned_supply at hb
    rw [hv] at hb
    injection hb with hb
    exact hb.symm

/-- Witness for C7 at the sample contract whose burned total 9 exceeds its
issued total 5: the subtraction is performed anyway, wrapping around the
64-bit amount domain. -/
theorem c7_total_supply_unguarded_sub_witness :
    Rgb20.total_supply supplyIface = Outcome.ok (amountSub 5 9) ∧
    9 > 5 ∧ amountSub 5 9 = 2 ^ 64 - 4 :=
  ⟨(c7_total_supply_unguarded_sub supplyIface 5 9 rfl rfl).1, by decide,
    by decide⟩

/-- Claim C10: when `burnedSupply` or `replacedSupply` is not bound in the
interface, `total_burned_supply` and `total_replaced_supply` swallow the
unknown-field error and return the zero amount (the sum over the empty
default), whereas `total_issued_supply` on an unbound `issuedSupply` field is
fatal rather than returning zero. -/
theorem c10_supply_error_handling (c : ContractIface) :
    (c.iface.global_type "burnedSupply" = none →
      Rgb20.total_burned_supply c = Outcome.ok 0) ∧
    (c.iface.global_type "replacedSupply" = none →
      Rgb20.total_replaced_supply c = Outcome.ok 0) ∧
    (c.iface.global_type "issuedSupply" = none →
      Rgb20.total_issued_supply c = Outcome.panic) := by
  refine ⟨?_, ?_, ?_⟩
  · intro h
    unfold Rgb20.total_burned_supply ContractIface.global
    rw [h]
    rfl
  · intro h
    unfold Rgb20.total_replaced_supply ContractIface.global
    rw [h]
    rfl
  · intro h
    unfold Rgb20.total_issued_supply ContractIface.global
    rw [h]

/-- Witness for C10 at a contract with no bound fields. -/
theorem c10_supply_error_handling_witness :
    Rgb20.total_burned_supply unboundIface = Outcome.ok 0 ∧
    Rgb20.total_replaced_supply unboundIface = Outcome.ok 0 ∧
    Rgb20.total_issued_supply unboundIface = Outcome.panic :=
  ⟨(c10_supply_error_handling unboundIface).1 rfl,
    (c10_supply_error_handling unboundIface).2.1 rfl,
    (c10_supply_error_handling unboundIface).2.2 rfl⟩

end RgbStd
